import Mathlib

/-!
Formal model of the centsh personal-finance ledger: the data model and
derivation engine from `models.rs` and the form / key-handling state machine
from `main.rs`, together with theorems checking the specification's claims.

Modelling conventions:
* `f64` amounts are modelled as exact rationals (`ℚ`); every arithmetic fact
  proved here involves only values on which the floating-point computation is
  exact or whose claim does not depend on rounding of the representation.
* chrono `NaiveDate` is modelled by its day number (days since 1970-01-01 in
  the proleptic Gregorian calendar, an `Int`); date comparison is integer
  comparison, which agrees with `NaiveDate`'s order, and the civil
  (year, month, day) view is computed by Howard Hinnant's algorithms, the same
  arithmetic chrono uses.
* Rust `HashMap` accumulation followed by a sort is modelled by an association
  list updated in iteration order; every claim about such an output is stated
  up to the properties (membership, sums, sortedness) that are independent of
  the hash iteration order.
* Rust's stable `sort_by` is modelled by `List.insertionSort`, which is stable
  with the same before/after placement of equal keys.
-/

namespace Centsh

/-- Day-number representation of a chrono `NaiveDate`: days since 1970-01-01
in the proleptic Gregorian calendar. -/
abbrev DayNum := Int

/-- Civil-calendar `(year, month, day)` of a day number (Howard Hinnant's
`civil_from_days` algorithm, the arithmetic used by chrono). -/
def civilFromDays (z : Int) : Int × Int × Int :=
  let zs := z + 719468
  let era := Int.fdiv zs 146097
  let doe := zs - era * 146097
  let yoe := Int.fdiv (doe - Int.fdiv doe 1460 + Int.fdiv doe 36524 - Int.fdiv doe 146096) 365
  let y := yoe + era * 400
  let doy := doe - (365 * yoe + Int.fdiv yoe 4 - Int.fdiv yoe 100)
  let mp := Int.fdiv (5 * doy + 2) 153
  let d := doy - Int.fdiv (153 * mp + 2) 5 + 1
  let m := if mp < 10 then mp + 3 else mp - 9
  (if m ≤ 2 then y + 1 else y, m, d)

/-- The calendar year of a day number, modelling `NaiveDate::year`. -/
def yearOf (d : DayNum) : Int := (civilFromDays d).1

/-- The calendar month (1–12) of a day number, modelling `NaiveDate::month`. -/
def monthOf (d : DayNum) : Int := (civilFromDays d).2.1

/-- The day of month of a day number, modelling `NaiveDate::day`. -/
def dayOf (d : DayNum) : Int := (civilFromDays d).2.2

/-- Day number of a civil `(year, month, day)` (Hinnant's `days_from_civil`). -/
def daysFromCivil (y m d : Int) : Int :=
  let ya := if m ≤ 2 then y - 1 else y
  let era := Int.fdiv ya 400
  let yoe := ya - era * 400
  let doy := Int.fdiv (153 * (m + (if 2 < m then -3 else 9)) + 2) 5 + d - 1
  let doe := yoe * 365 + Int.fdiv yoe 4 - Int.fdiv yoe 100 + doy
  era * 146097 + doe - 719468

/-- Gregorian leap-year test. -/
def isLeapYear (y : Int) : Bool :=
  (y % 4 = 0 && !(y % 100 = 0)) || y % 400 = 0

/-- Number of days in a civil month. -/
def daysInMonth (y m : Int) : Int :=
  if m = 2 then (if isLeapYear y then 29 else 28)
  else if m = 4 ∨ m = 6 ∨ m = 9 ∨ m = 11 then 30
  else 31

/-- Decimal digits of a positive natural number, most significant first
(fuel-based so that the kernel can evaluate it). -/
def natDigitsAux : Nat → Nat → List Char
  | 0, _ => []
  | fuel + 1, n => if n = 0 then [] else natDigitsAux fuel (n / 10) ++ [Char.ofNat (48 + n % 10)]

/-- Decimal string of a natural number. -/
def natRepr (n : Nat) : String :=
  if n = 0 then "0" else ⟨natDigitsAux (n + 1) n⟩

/-- Decimal string of an integer (minus sign, no padding), modelling the Rust
`Display` of an integer. -/
def intRepr (z : Int) : String :=
  if z < 0 then "-" ++ natRepr z.natAbs else natRepr z.toNat

/-- Zero-pad to width 2, modelling the Rust format specifier applied to a
month number. -/
def pad2 (m : Int) : String :=
  if 0 ≤ m ∧ m < 10 then "0" ++ intRepr m else intRepr m

/-- Zero-pad a natural number to width 4. -/
def pad4 (n : Nat) : String :=
  if n < 10 then "000" ++ natRepr n
  else if n < 100 then "00" ++ natRepr n
  else if n < 1000 then "0" ++ natRepr n
  else natRepr n

/-- The year-month bucket label produced in `spending_last_n_months`:
the year unpadded, a dash, the month zero-padded to two digits. -/
def monthLabel (y m : Int) : String := intRepr y ++ "-" ++ pad2 m

/-- ISO `YYYY-MM-DD` rendering of a day number, modelling the `Display`
implementation of `NaiveDate` used to pre-fill the date field. -/
def dateToString (d : DayNum) : String :=
  (if yearOf d < 0 then "-" ++ pad4 (yearOf d).natAbs else pad4 (yearOf d).toNat)
    ++ "-" ++ pad2 (monthOf d) ++ "-" ++ pad2 (dayOf d)

/-- Trim leading and trailing whitespace, modelling `str::trim` (the model
covers the ASCII whitespace characters, the ones the specification
exercises). -/
def strTrim (s : String) : String :=
  ⟨((s.data.dropWhile Char.isWhitespace).reverse.dropWhile Char.isWhitespace).reverse⟩

/-- Numeric value of a (digit-only) character list read in base 10. -/
def natOfDigits (cs : List Char) : Nat :=
  cs.foldl (fun n c => n * 10 + (c.toNat - 48)) 0

/-- Parse the optional exponent suffix of a float literal and apply it to the
already-parsed mantissa; fails unless the remaining input is empty or a
well-formed exponent. -/
def parseExpPart (mant : ℚ) : List Char → Option ℚ
  | [] => some mant
  | c :: rest =>
    if c = 'e' ∨ c = 'E' then
      let sgnRest : Int × List Char :=
        match rest with
        | '+' :: r => (1, r)
        | '-' :: r => (-1, r)
        | r => (1, r)
      let ds := sgnRest.2.takeWhile Char.isDigit
      let r3 := sgnRest.2.dropWhile Char.isDigit
      if ds.isEmpty ∨ !r3.isEmpty then none
      else some (mant * (10 : ℚ) ^ (sgnRest.1 * (natOfDigits ds : Int)))
    else none

/-- Parse an unsigned decimal literal (digits, optional fraction, optional
exponent) to an exact rational. -/
def parseUnsigned (cs : List Char) : Option ℚ :=
  let intPart := cs.takeWhile Char.isDigit
  let rest := cs.dropWhile Char.isDigit
  match rest with
  | '.' :: rest2 =>
    let fracPart := rest2.takeWhile Char.isDigit
    let rest3 := rest2.dropWhile Char.isDigit
    if intPart.isEmpty && fracPart.isEmpty then none
    else
      parseExpPart
        ((natOfDigits intPart : ℚ) + (natOfDigits fracPart : ℚ) / (10 : ℚ) ^ fracPart.length)
        rest3
  | _ =>
    if intPart.isEmpty then none else parseExpPart (natOfDigits intPart : ℚ) rest

/-- Model of `str::parse::<f64>` on finite decimal literals: optional sign,
then digits with an optional fraction and optional exponent. The value is
kept as an exact rational; the `inf`/`infinity`/`NaN` spellings are omitted
because amounts are modelled as rationals. -/
def parseF64 (s : String) : Option ℚ :=
  match s.data with
  | '+' :: rest => parseUnsigned rest
  | '-' :: rest => (parseUnsigned rest).map (fun q => -q)
  | cs => parseUnsigned cs

/-- Model of `NaiveDate::parse_from_str` with format `%Y-%m-%d`: three
dash-separated decimal components (the year possibly negative), the whole
input consumed, and the result a valid civil date. -/
def parseDate (s : String) : Option DayNum :=
  let signCs : Bool × List Char :=
    match s.data with
    | '-' :: rest => (true, rest)
    | cs => (false, cs)
  let yds := signCs.2.takeWhile Char.isDigit
  let r1 := signCs.2.dropWhile Char.isDigit
  match r1 with
  | '-' :: r2 =>
    let mds := r2.takeWhile Char.isDigit
    let r3 := r2.dropWhile Char.isDigit
    match r3 with
    | '-' :: r4 =>
      let dds := r4.takeWhile Char.isDigit
      let r5 := r4.dropWhile Char.isDigit
      if yds.isEmpty ∨ mds.isEmpty ∨ dds.isEmpty ∨ !r5.isEmpty then none
      else
        let y : Int := (if signCs.1 then -1 else 1) * (natOfDigits yds : Int)
        let m : Int := (natOfDigits mds : Int)
        let d : Int := (natOfDigits dds : Int)
        if 1 ≤ m ∧ m ≤ 12 ∧ 1 ≤ d ∧ d ≤ daysInMonth y m then some (daysFromCivil y m d)
        else none
    | _ => none
  | _ => none

/-- Rounding to the nearest integer, halves away from zero, modelling
`f64::round`. -/
def fround (q : ℚ) : Int :=
  if 0 ≤ q then ⌊q + 1 / 2⌋ else ⌈q - 1 / 2⌉

/-- A ledger transaction (`models.rs`): positive amounts are money leaving,
negative amounts income. -/
structure Transaction where
  id : Nat
  description : String
  amount : ℚ
  category : String
  date : DayNum
deriving DecidableEq

/-- A per-category monthly budget (`models.rs`). -/
structure Budget where
  id : Nat
  category : String
  monthly_limit : ℚ
deriving DecidableEq

/-- The aggregate ledger (`models.rs`). -/
structure Ledger where
  transactions : List Transaction
  budgets : List Budget
  next_tx_id : Nat
  next_budget_id : Nat
deriving DecidableEq

/-- The current-month summary returned by `current_month_overview`. -/
structure Overview where
  total_income : ℚ
  total_outgoing : ℚ
  net : ℚ
deriving DecidableEq

/-- A derived budget suggestion returned by `suggested_budgets`. -/
structure BudgetSuggestion where
  category : String
  suggested_limit : ℚ
  reason : String
deriving DecidableEq

/-- One step of the `HashMap` accumulation pattern
`*map.entry(k).or_insert(0.0) += v`, on an association list. -/
def addToMap {κ : Type} [DecidableEq κ] (k : κ) (v : ℚ) : List (κ × ℚ) → List (κ × ℚ)
  | [] => [(k, v)]
  | (k0, w) :: rest => if k0 = k then (k0, w + v) :: rest else (k0, w) :: addToMap k v rest

/-- Group the elements of a list by a key, summing a rational value per key:
the model of building a `HashMap<κ, f64>` by iterating `+=` over the list. -/
def groupSum {α κ : Type} [DecidableEq κ] (key : α → κ) (val : α → ℚ) (l : List α) :
    List (κ × ℚ) :=
  l.foldl (fun m t => addToMap (key t) (val t) m) []

/-- Association-list lookup. -/
def lookupQ {κ : Type} [DecidableEq κ] (k : κ) : List (κ × ℚ) → Option ℚ
  | [] => none
  | (k0, v) :: rest => if k0 = k then some v else lookupQ k rest

/-- `Ledger::add_transaction`: assign the next id, push, and re-sort the
transactions by date descending (`sort_by(|a, b| b.date.cmp(&a.date))`,
a stable sort). -/
def Ledger.add_transaction (l : Ledger) (description : String) (amount : ℚ)
    (category : String) (date : DayNum) : Ledger :=
  let tx : Transaction :=
    { id := l.next_tx_id, description := description, amount := amount,
      category := category, date := date }
  { l with
    next_tx_id := l.next_tx_id + 1,
    transactions :=
      List.insertionSort (fun a b => b.date ≤ a.date) (l.transactions ++ [tx]) }

/-- Overwrite the `monthly_limit` of the first budget whose category matches,
modelling the mutation through `iter_mut().find(..)`. -/
def updateFirst (category : String) (monthly_limit : ℚ) : List Budget → List Budget
  | [] => []
  | b :: bs =>
    if b.category = category then { b with monthly_limit := monthly_limit } :: bs
    else b :: updateFirst category monthly_limit bs

/-- `Ledger::add_or_update_budget`: update the matching budget in place if one
exists, otherwise append a new budget with the next id. -/
def Ledger.add_or_update_budget (l : Ledger) (category : String) (monthly_limit : ℚ) :
    Ledger :=
  if l.budgets.any (fun b => decide (b.category = category)) then
    { l with budgets := updateFirst category monthly_limit l.budgets }
  else
    { l with
      budgets :=
        l.budgets ++ [{ id := l.next_budget_id, category := category,
                        monthly_limit := monthly_limit }],
      next_budget_id := l.next_budget_id + 1 }

/-- `Ledger::current_month_overview`, with the reference date `now` passed
explicitly: fold over all transactions, accumulating `-amount` as income for
current-month transactions with negative amount and `amount` as outgoing for
the rest of the current-month transactions. -/
def Ledger.current_month_overview (l : Ledger) (now : DayNum) : Overview :=
  let acc := l.transactions.foldl
    (fun acc tx =>
      if yearOf tx.date = yearOf now ∧ monthOf tx.date = monthOf now then
        if tx.amount < 0 then (acc.1 + -tx.amount, acc.2) else (acc.1, acc.2 + tx.amount)
      else acc)
    ((0 : ℚ), (0 : ℚ))
  { total_income := acc.1, total_outgoing := acc.2, net := acc.1 - acc.2 }

/-- The filter of `Ledger::category_spending_current_month`: current-month
transactions with strictly positive amount. -/
def currentMonthExpense (now : DayNum) (t : Transaction) : Bool :=
  decide (0 < t.amount ∧ yearOf t.date = yearOf now ∧ monthOf t.date = monthOf now)

/-- `Ledger::category_spending_current_month`: group the current-month
positive-amount transactions by category, sum the amounts, and sort the pairs
descending by total (stable sort). -/
def Ledger.category_spending_current_month (l : Ledger) (now : DayNum) :
    List (String × ℚ) :=
  List.insertionSort (fun a b => b.2 ≤ a.2)
    (groupSum (fun t => t.category) (fun t => t.amount)
      (l.transactions.filter (currentMonthExpense now)))

/-- The keep-condition of `Ledger::spending_last_n_months`: the loop skips a
transaction exactly when `tx.date < earliest`. -/
def monthsCutoffKeep (now : DayNum) (months : Nat) (t : Transaction) : Bool :=
  !(decide (t.date < now - (months : Int) * 31))

/-- `Ledger::spending_last_n_months`: empty for `months = 0`; otherwise bucket
the transactions dated on or after `now - months*31` days by (year, month),
accumulating `-amount`, label each bucket `YYYY-MM`, and sort ascending by
label. -/
def Ledger.spending_last_n_months (l : Ledger) (now : DayNum) (months : Nat) :
    List (String × ℚ) :=
  if months = 0 then []
  else
    List.insertionSort (fun a b => a.1 ≤ b.1)
      ((groupSum (fun t => (yearOf t.date, monthOf t.date)) (fun t => -t.amount)
          (l.transactions.filter (monthsCutoffKeep now months))).map
        (fun p => (monthLabel p.1.1 p.1.2, p.2)))

/-- The filter of `Ledger::suggested_budgets`: transactions in the trailing
90-day window with strictly positive amount. -/
def suggestionWindow (now : DayNum) (t : Transaction) : Bool :=
  decide (now - 90 ≤ t.date ∧ 0 < t.amount)

/-- The fixed fallback suggestions returned when no category has qualifying
spend. -/
def fallbackSuggestions : List BudgetSuggestion :=
  [{ category := "Housing", suggested_limit := 0,
     reason := "Add your rent/mortgage so you can track it monthly" },
   { category := "Food", suggested_limit := 0,
     reason := "Groceries, coffee, restaurants" },
   { category := "Savings", suggested_limit := 0,
     reason := "Pay yourself first" }]

/-- The per-category suggestion computation of `Ledger::suggested_budgets`:
`base = max(window_sum / 3, 50)`, then a 10% buffer rounded to two decimal
places (`(base * 1.1 * 100).round() / 100`). -/
def mkSuggestion (p : String × ℚ) : BudgetSuggestion :=
  { category := p.1,
    suggested_limit := (fround (max (p.2 / 3) 50 * (11 / 10) * 100) : ℚ) / 100,
    reason := "Last 90 days average + 10% buffer" }

/-- `Ledger::suggested_budgets`: sum positive amounts per category over the
last 90 days, map each category to its buffered suggestion, fall back to the
fixed three suggestions when there is no qualifying spend, and sort
descending by suggested limit (stable sort); the source's intermediate
`spend` and `suggestions` bindings are inlined. -/
def Ledger.suggested_budgets (l : Ledger) (now : DayNum) : List BudgetSuggestion :=
  List.insertionSort (fun a b => b.suggested_limit ≤ a.suggested_limit)
    (if ((groupSum (fun t => t.category) (fun t => t.amount)
          (l.transactions.filter (suggestionWindow now))).map mkSuggestion).isEmpty then
      fallbackSuggestions
    else
      (groupSum (fun t => t.category) (fun t => t.amount)
          (l.transactions.filter (suggestionWindow now))).map mkSuggestion)

/-- A labelled text field of an input form (`main.rs`). -/
structure Field where
  label : String
  value : String
deriving DecidableEq

/-- The value type produced by a submitted transaction form. -/
structure NewTransaction where
  description : String
  amount : ℚ
  category : String
  date : DayNum
deriving DecidableEq

/-- The value type produced by a submitted budget form. -/
structure NewBudget where
  category : String
  monthly_limit : ℚ
deriving DecidableEq

/-- The outcome of a form submission, modelling `anyhow::Result`: an error
carries the user-visible message. -/
inductive SubmitResult (α : Type)
  | ok (value : α)
  | err (msg : String)
deriving DecidableEq

/-- The transaction-entry form: an ordered field list and a cursor index. -/
structure TxForm where
  fields : List Field
  index : Nat
deriving DecidableEq

/-- The budget-entry form: an ordered field list and a cursor index. -/
structure BudgetForm where
  fields : List Field
  index : Nat
deriving DecidableEq

/-- Replace the element at an index of a list, leaving the list unchanged when
the index is out of range. -/
def modifyAt {α : Type} (i : Nat) (f : α → α) : List α → List α
  | [] => []
  | x :: xs =>
    match i with
    | 0 => f x :: xs
    | j + 1 => x :: modifyAt j f xs

/-- The value of the field at an index (forms are always built with all their
fields present, so the default is never reached on reachable states). -/
def fieldValue (fs : List Field) (i : Nat) : String :=
  (fs.getD i { label := "", value := "" }).value

/-- `TxForm::new`: description and amount empty, category pre-filled with
`General`, date pre-filled with today's ISO rendering, cursor on the first
field. -/
def TxForm.new (today : DayNum) : TxForm :=
  { fields :=
      [{ label := "Description", value := "" },
       { label := "Amount (+out / -in)", value := "" },
       { label := "Category", value := "General" },
       { label := "Date (YYYY-MM-DD)", value := dateToString today }],
    index := 0 }

/-- `TxForm::next`: advance the cursor, clamped at the last field. -/
def TxForm.next (f : TxForm) : TxForm :=
  if f.index + 1 < f.fields.length then { f with index := f.index + 1 } else f

/-- `TxForm::prev`: move the cursor back, clamped at the first field. -/
def TxForm.prev (f : TxForm) : TxForm :=
  if 0 < f.index then { f with index := f.index - 1 } else f

/-- `TxForm::push_char`: append a character to the focused field. -/
def TxForm.push_char (f : TxForm) (c : Char) : TxForm :=
  { f with fields := modifyAt f.index (fun fd => { fd with value := fd.value.push c }) f.fields }

/-- `TxForm::backspace`: remove the last character of the focused field. -/
def TxForm.backspace (f : TxForm) : TxForm :=
  { f with fields := modifyAt f.index (fun fd => { fd with value := ⟨fd.value.data.dropLast⟩ }) f.fields }

/-- `TxForm::try_submit`: trim all four fields; the description must be
non-empty, the amount non-empty and parseable, the date empty (defaulting to
today) or parseable as `YYYY-MM-DD`; an empty category defaults to
`General`. -/
def TxForm.try_submit (f : TxForm) (today : DayNum) : SubmitResult NewTransaction :=
  let description := strTrim (fieldValue f.fields 0)
  let amount_str := strTrim (fieldValue f.fields 1)
  let category := strTrim (fieldValue f.fields 2)
  let date_str := strTrim (fieldValue f.fields 3)
  if description = "" then SubmitResult.err "Description is required"
  else if amount_str = "" then SubmitResult.err "Amount is required"
  else
    match parseF64 amount_str with
    | none => SubmitResult.err "Amount must be a number (use negative for income)"
    | some amount =>
      let dateRes : SubmitResult DayNum :=
        if date_str = "" then SubmitResult.ok today
        else
          match parseDate date_str with
          | none => SubmitResult.err "Date must be YYYY-MM-DD"
          | some d => SubmitResult.ok d
      match dateRes with
      | SubmitResult.err e => SubmitResult.err e
      | SubmitResult.ok date =>
        SubmitResult.ok
          { description := description, amount := amount,
            category := if category = "" then "General" else category, date := date }

/-- `BudgetForm::new`: category pre-filled with `General`, limit empty,
cursor on the first field. -/
def BudgetForm.new : BudgetForm :=
  { fields :=
      [{ label := "Category", value := "General" },
       { label := "Monthly limit", value := "" }],
    index := 0 }

/-- `BudgetForm::next`: advance the cursor, clamped at the last field. -/
def BudgetForm.next (f : BudgetForm) : BudgetForm :=
  if f.index + 1 < f.fields.length then { f with index := f.index + 1 } else f

/-- `BudgetForm::prev`: move the cursor back, clamped at the first field. -/
def BudgetForm.prev (f : BudgetForm) : BudgetForm :=
  if 0 < f.index then { f with index := f.index - 1 } else f

/-- `BudgetForm::push_char`: append a character to the focused field. -/
def BudgetForm.push_char (f : BudgetForm) (c : Char) : BudgetForm :=
  { f with fields := modifyAt f.index (fun fd => { fd with value := fd.value.push c }) f.fields }

/-- `BudgetForm::backspace`: remove the last character of the focused field. -/
def BudgetForm.backspace (f : BudgetForm) : BudgetForm :=
  { f with fields := modifyAt f.index (fun fd => { fd with value := ⟨fd.value.data.dropLast⟩ }) f.fields }

/-- `BudgetForm::try_submit`: the trimmed category must be non-empty and the
trimmed limit must parse as a number; no sign check is performed. -/
def BudgetForm.try_submit (f : BudgetForm) : SubmitResult NewBudget :=
  let category := strTrim (fieldValue f.fields 0)
  let limit := strTrim (fieldValue f.fields 1)
  if category = "" then SubmitResult.err "Category is required"
  else
    match parseF64 limit with
    | none => SubmitResult.err "Monthly limit must be a number (no $ sign)"
    | some monthly_limit =>
      SubmitResult.ok { category := category, monthly_limit := monthly_limit }

/-- The form slot of the application state. -/
inductive ActiveForm
  | none
  | transaction (form : TxForm)
  | budget (form : BudgetForm)
deriving DecidableEq

/-- The application state consumed by `handle_key`; the storage handle and
the last-save instant belong to the excluded persistence collaborator and are
not part of the core state. -/
structure App where
  ledger : Ledger
  active_tab : Nat
  form : ActiveForm
  show_suggestions : Bool
  last_message : String
deriving DecidableEq

/-- The key codes distinguished by `handle_key`. -/
inductive KeyCode
  | esc
  | tab
  | backTab
  | enter
  | backspace
  | left
  | right
  | char (c : Char)
  | other
deriving DecidableEq

/-- A key event: a code plus the control-modifier flag (the only modifier
`handle_key` inspects). -/
structure KeyEvent where
  code : KeyCode
  ctrl : Bool
deriving DecidableEq

/-- `handle_key` (`main.rs`), with today's date passed explicitly; returns
the new application state and whether the application should quit. Calls into
the excluded persistence collaborator (`save` on successful submission, the
`s` and `r` idle keys) are modelled as leaving the core state unchanged. -/
def handle_key (today : DayNum) (app : App) (key : KeyEvent) : App × Bool :=
  match app.form with
  | ActiveForm.transaction form =>
    match key.code with
    | KeyCode.esc =>
      ({ app with form := ActiveForm.none, last_message := "Cancelled transaction" }, false)
    | KeyCode.tab => ({ app with form := ActiveForm.transaction form.next }, false)
    | KeyCode.backTab => ({ app with form := ActiveForm.transaction form.prev }, false)
    | KeyCode.enter =>
      if form.index + 1 < form.fields.length then
        ({ app with form := ActiveForm.transaction form.next }, false)
      else
        match form.try_submit today with
        | SubmitResult.ok tx =>
          ({ app with
              ledger := app.ledger.add_transaction tx.description tx.amount tx.category tx.date,
              form := ActiveForm.none,
              last_message := "Transaction added" }, false)
        | SubmitResult.err e => ({ app with last_message := e }, false)
    | KeyCode.backspace => ({ app with form := ActiveForm.transaction form.backspace }, false)
    | KeyCode.left => ({ app with form := ActiveForm.transaction form.prev }, false)
    | KeyCode.right => ({ app with form := ActiveForm.transaction form.next }, false)
    | KeyCode.char c => ({ app with form := ActiveForm.transaction (form.push_char c) }, false)
    | KeyCode.other => (app, false)
  | ActiveForm.budget form =>
    match key.code with
    | KeyCode.esc =>
      ({ app with form := ActiveForm.none, last_message := "Cancelled budget edit" }, false)
    | KeyCode.tab => ({ app with form := ActiveForm.budget form.next }, false)
    | KeyCode.backTab => ({ app with form := ActiveForm.budget form.prev }, false)
    | KeyCode.enter =>
      if form.index + 1 < form.fields.length then
        ({ app with form := ActiveForm.budget form.next }, false)
      else
        match form.try_submit with
        | SubmitResult.ok budget =>
          ({ app with
              ledger := app.ledger.add_or_update_budget budget.category budget.monthly_limit,
              form := ActiveForm.none,
              last_message := "Budget saved" }, false)
        | SubmitResult.err e => ({ app with last_message := e }, false)
    | KeyCode.backspace => ({ app with form := ActiveForm.budget form.backspace }, false)
    | KeyCode.left => ({ app with form := ActiveForm.budget form.prev }, false)
    | KeyCode.right => ({ app with form := ActiveForm.budget form.next }, false)
    | KeyCode.char c => ({ app with form := ActiveForm.budget (form.push_char c) }, false)
    | KeyCode.other => (app, false)
  | ActiveForm.none =>
    match key.code with
    | KeyCode.char c =>
      if c = 'q' then (app, true)
      else if c = 'h' then
        ({ app with active_tab := if 0 < app.active_tab then app.active_tab - 1 else app.active_tab }, false)
      else if c = 'l' then
        ({ app with active_tab := if app.active_tab < 2 then app.active_tab + 1 else app.active_tab }, false)
      else if c = 'a' then ({ app with form := ActiveForm.transaction (TxForm.new today) }, false)
      else if c = 'b' then ({ app with form := ActiveForm.budget BudgetForm.new }, false)
      else if c = 's' then (app, false)
      else if c = 'g' then ({ app with show_suggestions := !app.show_suggestions }, false)
      else if c = 'r' then (app, false)
      else if c = 'c' ∧ key.ctrl then (app, true)
      else (app, false)
    | _ => (app, false)

section GroupSumLemmas

variable {κ : Type} [DecidableEq κ] {α : Type}

theorem lookupQ_addToMap (k kk : κ) (v : ℚ) (m : List (κ × ℚ)) :
    lookupQ k (addToMap kk v m) =
      if kk = k then some ((lookupQ k m).getD 0 + v) else lookupQ k m := by
  induction m with
  | nil =>
    by_cases h : kk = k <;> simp [addToMap, lookupQ, h]
  | cons p rest ih =>
    obtain ⟨k0, w⟩ := p
    by_cases h0 : k0 = kk
    · subst h0
      by_cases h1 : k0 = k
      · subst h1
        simp [addToMap, lookupQ]
      · simp [addToMap, lookupQ, h1]
    · by_cases h1 : k0 = k
      · subst h1
        simp [addToMap, lookupQ, h0, Ne.symm h0, ih]
      · simp [addToMap, lookupQ, h0, h1, ih]

theorem keys_addToMap (k : κ) (v : ℚ) (m : List (κ × ℚ)) :
    (addToMap k v m).map Prod.fst =
      if (lookupQ k m).isSome then m.map Prod.fst else m.map Prod.fst ++ [k] := by
  induction m with
  | nil => simp [addToMap, lookupQ]
  | cons p rest ih =>
    obtain ⟨k0, w⟩ := p
    by_cases h0 : k0 = k
    · subst h0
      simp [addToMap, lookupQ]
    · by_cases h1 : (lookupQ k rest).isSome <;>
        simp [addToMap, lookupQ, h0, ih, h1]

theorem lookupQ_none_iff (k : κ) (m : List (κ × ℚ)) :
    lookupQ k m = none ↔ k ∉ m.map Prod.fst := by
  induction m with
  | nil => simp [lookupQ]
  | cons p rest ih =>
    obtain ⟨k0, w⟩ := p
    by_cases h0 : k0 = k
    · subst h0
      simp [lookupQ]
    · simp [lookupQ, h0, Ne.symm h0, ih]

theorem mem_of_lookupQ {k : κ} {v : ℚ} {m : List (κ × ℚ)} (h : lookupQ k m = some v) :
    (k, v) ∈ m := by
  induction m with
  | nil => simp [lookupQ] at h
  | cons p rest ih =>
    obtain ⟨k0, w⟩ := p
    by_cases h0 : k0 = k
    · subst h0
      simp [lookupQ] at h
      simp [h]
    · simp [lookupQ, h0] at h
      exact List.mem_cons_of_mem _ (ih h)

theorem lookupQ_of_mem_nodup {k : κ} {v : ℚ} {m : List (κ × ℚ)}
    (hnd : (m.map Prod.fst).Nodup) (h : (k, v) ∈ m) : lookupQ k m = some v := by
  induction m with
  | nil => simp at h
  | cons p rest ih =>
    obtain ⟨k0, w⟩ := p
    rw [List.map_cons, List.nodup_cons] at hnd
    rcases List.mem_cons.mp h with h1 | h1
    · injection h1 with hk hv
      subst hk
      subst hv
      simp [lookupQ]
    · have hk0 : k0 ≠ k := by
        intro he
        subst he
        exact hnd.1 (List.mem_map.mpr ⟨(k0, v), h1, rfl⟩)
      simp only [lookupQ, if_neg hk0]
      exact ih hnd.2 h1

theorem lookupQ_foldl_addToMap (key : α → κ) (val : α → ℚ) (l : List α)
    (m : List (κ × ℚ)) (k : κ) :
    lookupQ k (l.foldl (fun m t => addToMap (key t) (val t) m) m) =
      if l.any (fun t => decide (key t = k)) || (lookupQ k m).isSome then
        some ((lookupQ k m).getD 0 + ((l.filter (fun t => decide (key t = k))).map val).sum)
      else none := by
  induction l generalizing m with
  | nil =>
    cases h : lookupQ k m <;> simp [h]
  | cons t l ih =>
    have hmap := lookupQ_addToMap k (key t) (val t) m
    by_cases ht : key t = k
    · rw [if_pos ht] at hmap
      rw [ht] at hmap
      simp only [List.foldl_cons, ih, hmap, List.any_cons, List.filter_cons, ht]
      simp [add_assoc]
    · rw [if_neg ht] at hmap
      simp only [List.foldl_cons, ih, hmap, List.any_cons, List.filter_cons, ht]
      simp

theorem lookupQ_groupSum (key : α → κ) (val : α → ℚ) (l : List α) (k : κ) :
    lookupQ k (groupSum key val l) =
      if l.any (fun t => decide (key t = k)) then
        some (((l.filter (fun t => decide (key t = k))).map val).sum)
      else none := by
  have h := lookupQ_foldl_addToMap key val l [] k
  simpa [groupSum, lookupQ] using h

theorem keys_foldl_addToMap_nodup (key : α → κ) (val : α → ℚ) (l : List α)
    (m : List (κ × ℚ)) (hnd : (m.map Prod.fst).Nodup) :
    ((l.foldl (fun m t => addToMap (key t) (val t) m) m).map Prod.fst).Nodup := by
  induction l generalizing m with
  | nil => simpa using hnd
  | cons t l ih =>
    refine ih (addToMap (key t) (val t) m) ?_
    rw [keys_addToMap]
    by_cases h : (lookupQ (key t) m).isSome
    · simpa [h] using hnd
    · have hnotin : key t ∉ m.map Prod.fst := by
        rw [← lookupQ_none_iff]
        cases hl : lookupQ (key t) m
        · rfl
        · simp [hl] at h
      simp only [h, if_false]
      exact List.Nodup.append hnd (List.nodup_singleton _)
        (by simpa [List.disjoint_singleton] using hnotin)

theorem keys_groupSum_nodup (key : α → κ) (val : α → ℚ) (l : List α) :
    ((groupSum key val l).map Prod.fst).Nodup :=
  keys_foldl_addToMap_nodup key val l [] (by simp)

theorem mem_groupSum_iff (key : α → κ) (val : α → ℚ) (l : List α) (k : κ) (v : ℚ) :
    (k, v) ∈ groupSum key val l ↔
      (∃ t ∈ l, key t = k) ∧ v = ((l.filter (fun t => decide (key t = k))).map val).sum := by
  constructor
  · intro h
    have hl := lookupQ_of_mem_nodup (keys_groupSum_nodup key val l) h
    rw [lookupQ_groupSum] at hl
    by_cases hany : l.any (fun t => decide (key t = k))
    · rw [if_pos hany] at hl
      refine ⟨?_, (Option.some.inj hl).symm⟩
      simpa using hany
    · simp [hany] at hl
  · rintro ⟨hex, hv⟩
    have hany : l.any (fun t => decide (key t = k)) = true := by simpa using hex
    have hl : lookupQ k (groupSum key val l) = some v := by
      rw [lookupQ_groupSum, if_pos hany, hv]
    exact mem_of_lookupQ hl

theorem exists_mem_groupSum (key : α → κ) (val : α → ℚ) (l : List α) {t : α}
    (ht : t ∈ l) : ∃ p ∈ groupSum key val l, p.1 = key t := by
  refine ⟨(key t, ((l.filter (fun u => decide (key u = key t))).map val).sum), ?_, rfl⟩
  exact (mem_groupSum_iff key val l (key t) _).mpr ⟨⟨t, ht, rfl⟩, rfl⟩

end GroupSumLemmas

instance : IsTotal Transaction (fun a b => b.date ≤ a.date) :=
  ⟨fun a b => le_total b.date a.date⟩

instance : IsTrans Transaction (fun a b => b.date ≤ a.date) :=
  ⟨fun _ _ _ h1 h2 => le_trans h2 h1⟩

instance : IsTotal (String × ℚ) (fun a b => b.2 ≤ a.2) :=
  ⟨fun a b => le_total b.2 a.2⟩

instance : IsTrans (String × ℚ) (fun a b => b.2 ≤ a.2) :=
  ⟨fun _ _ _ h1 h2 => le_trans h2 h1⟩

instance : IsTotal (String × ℚ) (fun a b => a.1 ≤ b.1) :=
  ⟨fun a b => le_total a.1 b.1⟩

instance : IsTrans (String × ℚ) (fun a b => a.1 ≤ b.1) :=
  ⟨fun _ _ _ h1 h2 => le_trans h1 h2⟩

instance : IsTotal BudgetSuggestion (fun a b => b.suggested_limit ≤ a.suggested_limit) :=
  ⟨fun a b => le_total b.suggested_limit a.suggested_limit⟩

instance : IsTrans BudgetSuggestion (fun a b => b.suggested_limit ≤ a.suggested_limit) :=
  ⟨fun _ _ _ h1 h2 => le_trans h2 h1⟩

/-- The accumulating fold of `current_month_overview`, rewritten as a pair of
filtered sums. -/
theorem overview_foldl (now : DayNum) (l : List Transaction) (a b : ℚ) :
    l.foldl
      (fun acc tx =>
        if yearOf tx.date = yearOf now ∧ monthOf tx.date = monthOf now then
          if tx.amount < 0 then (acc.1 + -tx.amount, acc.2) else (acc.1, acc.2 + tx.amount)
        else acc)
      (a, b) =
      (a + ((l.filter (fun tx =>
              decide ((yearOf tx.date = yearOf now ∧ monthOf tx.date = monthOf now) ∧
                tx.amount < 0))).map (fun tx => -tx.amount)).sum,
       b + ((l.filter (fun tx =>
              decide ((yearOf tx.date = yearOf now ∧ monthOf tx.date = monthOf now) ∧
                0 ≤ tx.amount))).map (fun tx => tx.amount)).sum) := by
  induction l generalizing a b with
  | nil => simp
  | cons t l ih =>
    by_cases hm : yearOf t.date = yearOf now ∧ monthOf t.date = monthOf now
    · by_cases hs : t.amount < 0
      · simp [List.foldl_cons, List.filter_cons, hm, hs, not_le.mpr hs, ih, add_assoc]
      · simp [List.foldl_cons, List.filter_cons, hm, hs, not_lt.mp hs, ih, add_assoc]
    · simp [List.foldl_cons, List.filter_cons, hm, ih]

/-- `updateFirst` never changes the category sequence. -/
theorem map_category_updateFirst (c : String) (m : ℚ) (bs : List Budget) :
    (updateFirst c m bs).map Budget.category = bs.map Budget.category := by
  induction bs with
  | nil => rfl
  | cons b bs ih =>
    by_cases h : b.category = c <;> simp [updateFirst, h, ih]

/-- `updateFirst` never changes the id sequence. -/
theorem map_id_updateFirst (c : String) (m : ℚ) (bs : List Budget) :
    (updateFirst c m bs).map Budget.id = bs.map Budget.id := by
  induction bs with
  | nil => rfl
  | cons b bs ih =>
    by_cases h : b.category = c <;> simp [updateFirst, h, ih]

/-- With pairwise-distinct categories, updating the first match is the same as
updating every match: the unique matching budget gets the new limit in place,
everything else (including its id) is untouched. -/
theorem updateFirst_eq_map {bs : List Budget} (c : String) (m : ℚ)
    (hnd : (bs.map Budget.category).Nodup) :
    updateFirst c m bs =
      bs.map (fun b => if b.category = c then { b with monthly_limit := m } else b) := by
  induction bs with
  | nil => rfl
  | cons b bs ih =>
    rw [List.map_cons, List.nodup_cons] at hnd
    by_cases h : b.category = c
    · have hrest : bs.map (fun b => if b.category = c then { b with monthly_limit := m } else b)
          = bs.map id := by
        refine List.map_congr_left (fun x hx => ?_)
        have : x.category ≠ c := by
          intro he
          apply hnd.1
          rw [h, ← he]
          exact List.mem_map.mpr ⟨x, hx, rfl⟩
        simp [this]
      simp [updateFirst, h, hrest]
    · simp [updateFirst, h, ih hnd.2]

/-- Membership in the result of `updateFirst`: every budget either kept its
old limit or carries the new one. -/
theorem mem_updateFirst {c : String} {m : ℚ} {bs : List Budget} {b : Budget}
    (h : b ∈ updateFirst c m bs) : b ∈ bs ∨ b.monthly_limit = m := by
  induction bs with
  | nil => simp [updateFirst] at h
  | cons b0 bs ih =>
    by_cases h0 : b0.category = c
    · simp only [updateFirst, if_pos h0] at h
      rcases List.mem_cons.mp h with h1 | h1
      · right
        rw [h1]
      · left
        exact List.mem_cons_of_mem _ h1
    · simp only [updateFirst, if_neg h0] at h
      rcases List.mem_cons.mp h with h1 | h1
      · left
        simp [h1]
      · rcases ih h1 with h2 | h2
        · left
          exact List.mem_cons_of_mem _ h2
        · right
          exact h2

/-- `updateFirst` preserves the count of budgets in any category. -/
theorem countP_updateFirst (c cc : String) (m : ℚ) (bs : List Budget) :
    (updateFirst c m bs).countP (fun b => decide (b.category = cc)) =
      bs.countP (fun b => decide (b.category = cc)) := by
  induction bs with
  | nil => rfl
  | cons b bs ih =>
    by_cases h : b.category = c <;>
      simp [updateFirst, h, List.countP_cons, ih]

/-- In a list of budgets with pairwise-distinct categories, a category that
occurs occurs exactly once. -/
theorem countP_category_eq_one {bs : List Budget} {c : String}
    (hnd : (bs.map Budget.category).Nodup) (h : ∃ b ∈ bs, b.category = c) :
    bs.countP (fun b => decide (b.category = c)) = 1 := by
  induction bs with
  | nil => simp at h
  | cons b bs ih =>
    rw [List.map_cons, List.nodup_cons] at hnd
    by_cases h0 : b.category = c
    · have hzero : bs.countP (fun b => decide (b.category = c)) = 0 := by
        rw [List.countP_eq_zero]
        intro x hx
        simp only [decide_eq_true_eq]
        intro he
        apply hnd.1
        rw [h0, ← he]
        exact List.mem_map.mpr ⟨x, hx, rfl⟩
      simp [List.countP_cons, h0, hzero]
    · have h1 : ∃ x ∈ bs, x.category = c := by
        rcases h with ⟨x, hx, hxc⟩
        rcases List.mem_cons.mp hx with h2 | h2
        · exact absurd (h2 ▸ hxc) h0
        · exact ⟨x, h2, hxc⟩
      simp [List.countP_cons, h0, ih hnd.2 h1]

/-- Apply a sequence of `add_transaction` calls, each given as
(description, amount, category, date). -/
def applyTxCalls (l : Ledger) (calls : List (String × ℚ × String × DayNum)) : Ledger :=
  calls.foldl (fun l c => l.add_transaction c.1 c.2.1 c.2.2.1 c.2.2.2) l

/-- A single `add_transaction` call leaves the transactions sorted by date
descending, whatever the previous state. -/
theorem add_transaction_sorted (l : Ledger) (d : String) (a : ℚ) (c : String)
    (dt : DayNum) :
    List.Sorted (fun x y : Transaction => y.date ≤ x.date)
      ((l.add_transaction d a c dt).transactions) :=
  List.sorted_insertionSort _ _

/-- An empty ledger, used to instantiate universally quantified theorems. -/
def emptyLedger : Ledger :=
  { transactions := [], budgets := [], next_tx_id := 1, next_budget_id := 1 }

/-- C1: for every ledger and every sequence of `add_transaction` calls (any
descriptions, amounts including zero, categories, and dates past, present or
future), after each call — that is, after every non-empty sequence of calls —
the transactions are sorted by date descending. -/
theorem add_transaction_sorted_after_each_call (l : Ledger)
    (calls : List (String × ℚ × String × DayNum)) (h : calls ≠ []) :
    List.Sorted (fun x y : Transaction => y.date ≤ x.date)
      ((applyTxCalls l calls).transactions) := by
  rcases List.eq_nil_or_concat calls with rfl | ⟨cs, c, rfl⟩
  · exact absurd rfl h
  · simp only [applyTxCalls, List.concat_eq_append, List.foldl_append, List.foldl_cons,
      List.foldl_nil]
    exact add_transaction_sorted _ _ _ _ _

/-- Witness for C1 at a concrete ledger and two concrete calls. -/
theorem add_transaction_sorted_after_each_call_witness :
    ([(("Rent", (1700 : ℚ), "Housing", daysFromCivil 2026 10 1)),
      (("Paycheck", (-4100 : ℚ), "Income", daysFromCivil 2026 9 27))] :
        List (String × ℚ × String × DayNum)) ≠ [] ∧
    List.Sorted (fun x y : Transaction => y.date ≤ x.date)
      ((applyTxCalls emptyLedger
        [(("Rent", (1700 : ℚ), "Housing", daysFromCivil 2026 10 1)),
         (("Paycheck", (-4100 : ℚ), "Income", daysFromCivil 2026 9 27))]).transactions) :=
  ⟨by decide, add_transaction_sorted_after_each_call emptyLedger _ (by decide)⟩

/-- The branch of `add_or_update_budget` taken when the category is already
present. -/
theorem add_or_update_budget_found {l : Ledger} {c : String} (m : ℚ)
    (h : l.budgets.any (fun b => decide (b.category = c)) = true) :
    l.add_or_update_budget c m = { l with budgets := updateFirst c m l.budgets } := by
  unfold Ledger.add_or_update_budget
  rw [if_pos h]

/-- The branch of `add_or_update_budget` taken when the category is new. -/
theorem add_or_update_budget_notfound {l : Ledger} {c : String} (m : ℚ)
    (h : ¬ (l.budgets.any (fun b => decide (b.category = c)) = true)) :
    l.add_or_update_budget c m =
      { l with
        budgets := l.budgets ++ [{ id := l.next_budget_id, category := c, monthly_limit := m }],
        next_budget_id := l.next_budget_id + 1 } := by
  unfold Ledger.add_or_update_budget
  rw [if_neg h]

/-- C2: with pairwise-distinct budget categories, `add_or_update_budget` keeps
them distinct; an existing category is overwritten in place (ids and the
category sequence unchanged, counter unchanged), a new category is appended
with id `next_budget_id` and the counter increments; and two calls with the
same category leave exactly one budget in that category. -/
theorem add_or_update_budget_upsert (l : Ledger) (c : String) (m1 m2 : ℚ)
    (hnd : (l.budgets.map Budget.category).Nodup) :
    ((l.add_or_update_budget c m1).budgets.map Budget.category).Nodup
    ∧ ((∃ b ∈ l.budgets, b.category = c) →
        (l.add_or_update_budget c m1).budgets =
          l.budgets.map (fun b => if b.category = c then { b with monthly_limit := m1 } else b)
        ∧ (l.add_or_update_budget c m1).budgets.map Budget.id = l.budgets.map Budget.id
        ∧ (l.add_or_update_budget c m1).next_budget_id = l.next_budget_id)
    ∧ ((∀ b ∈ l.budgets, b.category ≠ c) →
        (l.add_or_update_budget c m1).budgets =
          l.budgets ++ [{ id := l.next_budget_id, category := c, monthly_limit := m1 }]
        ∧ (l.add_or_update_budget c m1).next_budget_id = l.next_budget_id + 1)
    ∧ ((l.add_or_update_budget c m1).add_or_update_budget c m2).budgets.countP
        (fun b => decide (b.category = c)) = 1 := by
  have hiff : (l.budgets.any (fun b => decide (b.category = c)) = true) ↔
      ∃ b ∈ l.budgets, b.category = c := by
    simp [List.any_eq_true]
  by_cases hc : ∃ b ∈ l.budgets, b.category = c
  · have hany : l.budgets.any (fun b => decide (b.category = c)) = true := hiff.mpr hc
    have hb1 : (l.add_or_update_budget c m1).budgets = updateFirst c m1 l.budgets := by
      rw [add_or_update_budget_found m1 hany]
    have hn1 : (l.add_or_update_budget c m1).next_budget_id = l.next_budget_id := by
      rw [add_or_update_budget_found m1 hany]
    have hcat1 : (l.add_or_update_budget c m1).budgets.map Budget.category =
        l.budgets.map Budget.category := by
      rw [hb1, map_category_updateFirst]
    have hc1 : ∃ b ∈ (l.add_or_update_budget c m1).budgets, b.category = c := by
      have hmem : c ∈ (l.add_or_update_budget c m1).budgets.map Budget.category := by
        rw [hcat1]
        rcases hc with ⟨b, hb, hbc⟩
        exact List.mem_map.mpr ⟨b, hb, hbc⟩
      rcases List.mem_map.mp hmem with ⟨b, hb, hbc⟩
      exact ⟨b, hb, hbc⟩
    have hany2 : (l.add_or_update_budget c m1).budgets.any
        (fun b => decide (b.category = c)) = true := by
      simpa [List.any_eq_true] using hc1
    have hb2 : ((l.add_or_update_budget c m1).add_or_update_budget c m2).budgets =
        updateFirst c m2 (l.add_or_update_budget c m1).budgets := by
      rw [add_or_update_budget_found m2 hany2]
    refine ⟨by rw [hcat1]; exact hnd, ?_, ?_, ?_⟩
    · intro _
      exact ⟨by rw [hb1, updateFirst_eq_map c m1 hnd], by rw [hb1, map_id_updateFirst], hn1⟩
    · intro hno
      rcases hc with ⟨b, hb, hbc⟩
      exact absurd hbc (hno b hb)
    · rw [hb2, countP_updateFirst, hb1, countP_updateFirst]
      exact countP_category_eq_one hnd hc
  · have hany : ¬ (l.budgets.any (fun b => decide (b.category = c)) = true) :=
      fun h => hc (hiff.mp h)
    have hb1 : (l.add_or_update_budget c m1).budgets =
        l.budgets ++ [{ id := l.next_budget_id, category := c, monthly_limit := m1 }] := by
      rw [add_or_update_budget_notfound m1 hany]
    have hn1 : (l.add_or_update_budget c m1).next_budget_id = l.next_budget_id + 1 := by
      rw [add_or_update_budget_notfound m1 hany]
    have hnotin : c ∉ l.budgets.map Budget.category := by
      intro hmem
      rcases List.mem_map.mp hmem with ⟨b, hb, hbc⟩
      exact hc ⟨b, hb, hbc⟩
    have hc1 : ∃ b ∈ (l.add_or_update_budget c m1).budgets, b.category = c := by
      refine ⟨{ id := l.next_budget_id, category := c, monthly_limit := m1 }, ?_, rfl⟩
      rw [hb1]
      exact List.mem_append_right _ (List.mem_singleton.mpr rfl)
    have hany2 : (l.add_or_update_budget c m1).budgets.any
        (fun b => decide (b.category = c)) = true := by
      simpa [List.any_eq_true] using hc1
    have hb2 : ((l.add_or_update_budget c m1).add_or_update_budget c m2).budgets =
        updateFirst c m2 (l.add_or_update_budget c m1).budgets := by
      rw [add_or_update_budget_found m2 hany2]
    have hzero : l.budgets.countP (fun b => decide (b.category = c)) = 0 := by
      rw [List.countP_eq_zero]
      intro b hb
      simp only [decide_eq_true_eq]
      exact fun hbc => hc ⟨b, hb, hbc⟩
    refine ⟨?_, ?_, fun _ => ⟨hb1, hn1⟩, ?_⟩
    · rw [hb1, List.map_append]
      exact List.Nodup.append hnd (List.nodup_singleton _)
        (by simpa [List.disjoint_singleton] using hnotin)
    · intro hex
      exact absurd hex hc
    · rw [hb2, countP_updateFirst, hb1, List.countP_append, hzero]
      simp

/-- Witness for C2 at a concrete ledger with distinct categories. -/
theorem add_or_update_budget_upsert_witness :
    ((emptyLedger.budgets.map Budget.category).Nodup) ∧
    (((emptyLedger.add_or_update_budget "Food" 600).add_or_update_budget "Food" 450).budgets.countP
        (fun b => decide (b.category = "Food")) = 1) :=
  ⟨by decide, (add_or_update_budget_upsert emptyLedger "Food" 600 450 (by decide)).2.2.2⟩

/-- The specification's income formula: the sum of the negated amounts of the
current-month transactions with negative amount. -/
def specIncome (now : DayNum) (l : Ledger) : ℚ :=
  ((l.transactions.filter (fun tx =>
      decide ((yearOf tx.date = yearOf now ∧ monthOf tx.date = monthOf now) ∧
        tx.amount < 0))).map (fun tx => -tx.amount)).sum

/-- The specification's outgoing formula: the sum of the amounts of the
current-month transactions with amount at least zero. -/
def specOutgoing (now : DayNum) (l : Ledger) : ℚ :=
  ((l.transactions.filter (fun tx =>
      decide ((yearOf tx.date = yearOf now ∧ monthOf tx.date = monthOf now) ∧
        0 ≤ tx.amount))).map (fun tx => tx.amount)).sum

/-- A ledger holding current-month transactions with amounts −100, 50 and 0,
dated inside October 2026. -/
def exampleMonthLedger : Ledger :=
  { transactions :=
      [{ id := 1, description := "Pay", amount := -100, category := "Income",
         date := daysFromCivil 2026 10 3 },
       { id := 2, description := "Food run", amount := 50, category := "Food",
         date := daysFromCivil 2026 10 5 },
       { id := 3, description := "Zero move", amount := 0, category := "Misc",
         date := daysFromCivil 2026 10 7 }],
    budgets := [], next_tx_id := 4, next_budget_id := 1 }

/-- C3: `current_month_overview` restricts to transactions of the current
year and month, sums `-amount` over the negative-amount ones as income and
`amount` over the rest (including zero) as outgoing, and returns
`net = income - outgoing`; on current-month amounts [−100, 50, 0] it yields
income 100, outgoing 50, net 50. -/
theorem current_month_overview_spec :
    (∀ (now : DayNum) (l : Ledger),
      l.current_month_overview now =
        { total_income := specIncome now l, total_outgoing := specOutgoing now l,
          net := specIncome now l - specOutgoing now l })
    ∧ exampleMonthLedger.current_month_overview (daysFromCivil 2026 10 12) =
        { total_income := 100, total_outgoing := 50, net := 50 } := by
  have hgen : ∀ (now : DayNum) (l : Ledger),
      l.current_month_overview now =
        { total_income := specIncome now l, total_outgoing := specOutgoing now l,
          net := specIncome now l - specOutgoing now l } := by
    intro now l
    show Overview.mk _ _ _ = _
    rw [overview_foldl now l.transactions 0 0]
    simp [specIncome, specOutgoing]
  have hf1 : exampleMonthLedger.transactions.filter (fun tx =>
      decide ((yearOf tx.date = yearOf (daysFromCivil 2026 10 12) ∧
        monthOf tx.date = monthOf (daysFromCivil 2026 10 12)) ∧ tx.amount < 0)) =
      [{ id := 1, description := "Pay", amount := -100, category := "Income",
         date := daysFromCivil 2026 10 3 }] := by
    decide
  have hf2 : exampleMonthLedger.transactions.filter (fun tx =>
      decide ((yearOf tx.date = yearOf (daysFromCivil 2026 10 12) ∧
        monthOf tx.date = monthOf (daysFromCivil 2026 10 12)) ∧ 0 ≤ tx.amount)) =
      [{ id := 2, description := "Food run", amount := 50, category := "Food",
         date := daysFromCivil 2026 10 5 },
       { id := 3, description := "Zero move", amount := 0, category := "Misc",
         date := daysFromCivil 2026 10 7 }] := by
    decide
  have hinc : specIncome (daysFromCivil 2026 10 12) exampleMonthLedger = 100 := by
    unfold specIncome
    rw [hf1]
    norm_num
  have hout : specOutgoing (daysFromCivil 2026 10 12) exampleMonthLedger = 50 := by
    unfold specOutgoing
    rw [hf2]
    norm_num
  refine ⟨hgen, ?_⟩
  rw [hgen, hinc, hout]
  norm_num

/-- Apply a sequence of `add_or_update_budget` calls (category, limit). -/
def applyBudgetUpdates (l : Ledger) (us : List (String × ℚ)) : Ledger :=
  us.foldl (fun l u => l.add_or_update_budget u.1 u.2) l

/-- Every budget after an upsert either was already there or carries the
freshly supplied limit. -/
theorem mem_add_or_update_budget {l : Ledger} {c : String} {m : ℚ} {b : Budget}
    (h : b ∈ (l.add_or_update_budget c m).budgets) :
    b ∈ l.budgets ∨ b.monthly_limit = m := by
  by_cases hc : l.budgets.any (fun b => decide (b.category = c)) = true
  · rw [add_or_update_budget_found m hc] at h
    exact mem_updateFirst h
  · rw [add_or_update_budget_notfound m hc] at h
    rcases List.mem_append.mp h with h1 | h1
    · exact Or.inl h1
    · right
      rw [List.mem_singleton.mp h1]

/-- C4 counterexample: the budget form's validation accepts the parseable
negative limit "-5" (it checks only that the category is non-empty and the
limit parses), and applying the validated value leaves the ledger with a
budget whose monthly limit is negative. -/
theorem budget_nonneg_counterexample :
    BudgetForm.try_submit
        { fields := [{ label := "Category", value := "Food" },
                     { label := "Monthly limit", value := "-5" }], index := 1 } =
      SubmitResult.ok { category := "Food", monthly_limit := -5 }
    ∧ ∃ b ∈ (emptyLedger.add_or_update_budget "Food" (-5)).budgets,
        b.monthly_limit < 0 := by
  refine ⟨by decide, { id := 1, category := "Food", monthly_limit := -5 }, by decide, by decide⟩

/-- C4 (amended): the budget form enforces no sign on the limit, so the
invariant holds only conditionally — starting from a ledger whose budgets all
have non-negative limits, any sequence of `add_or_update_budget` calls whose
limits are non-negative (in particular, form submissions whose parsed limit
is non-negative) keeps every `monthly_limit` non-negative. -/
theorem budget_limits_nonneg_of_nonneg_inputs (l : Ledger) (us : List (String × ℚ))
    (h1 : ∀ b ∈ l.budgets, 0 ≤ b.monthly_limit) (h2 : ∀ u ∈ us, 0 ≤ u.2) :
    ∀ b ∈ (applyBudgetUpdates l us).budgets, 0 ≤ b.monthly_limit := by
  induction us generalizing l with
  | nil => simpa [applyBudgetUpdates] using h1
  | cons u us ih =>
    simp only [applyBudgetUpdates, List.foldl_cons] at *
    refine ih (l.add_or_update_budget u.1 u.2) ?_ (fun v hv => h2 v (List.mem_cons_of_mem _ hv))
    intro b hb
    rcases mem_add_or_update_budget hb with hbl | hbm
    · exact h1 b hbl
    · rw [hbm]
      exact h2 u (List.mem_cons_self _ _)

/-- Witness for the amended C4 at concrete non-negative updates. -/
theorem budget_limits_nonneg_of_nonneg_inputs_witness :
    (∀ b ∈ emptyLedger.budgets, 0 ≤ b.monthly_limit)
    ∧ (∀ u ∈ ([("Food", (600 : ℚ)), ("Housing", 1800)] : List (String × ℚ)), 0 ≤ u.2)
    ∧ ∀ b ∈ (applyBudgetUpdates emptyLedger
        [("Food", (600 : ℚ)), ("Housing", 1800)]).budgets, 0 ≤ b.monthly_limit :=
  ⟨by decide, by decide,
    budget_limits_nonneg_of_nonneg_inputs emptyLedger _ (by decide) (by decide)⟩

/-- C7: `category_spending_current_month` contains exactly the categories of
the current-month positive-amount transactions, each paired with the sum of
that category's qualifying amounts, and the pairs are sorted descending by
total. -/
theorem category_spending_current_month_spec (now : DayNum) (l : Ledger) :
    (∀ p ∈ l.category_spending_current_month now,
      (∃ t ∈ l.transactions.filter (currentMonthExpense now), t.category = p.1)
      ∧ p.2 = (((l.transactions.filter (currentMonthExpense now)).filter
            (fun t => decide (t.category = p.1))).map (fun t => t.amount)).sum)
    ∧ (∀ t ∈ l.transactions.filter (currentMonthExpense now),
        ∃ p ∈ l.category_spending_current_month now, p.1 = t.category)
    ∧ List.Sorted (fun a b : String × ℚ => b.2 ≤ a.2)
        (l.category_spending_current_month now) := by
  refine ⟨?_, ?_, ?_⟩
  · intro p hp
    have hp2 : p ∈ groupSum (fun t => t.category) (fun t => t.amount)
        (l.transactions.filter (currentMonthExpense now)) :=
      (List.mem_insertionSort (fun a b : String × ℚ => b.2 ≤ a.2)).mp hp
    have := (mem_groupSum_iff (fun t => t.category) (fun t => t.amount)
      (l.transactions.filter (currentMonthExpense now)) p.1 p.2).mp hp2
    exact this
  · intro t ht
    rcases exists_mem_groupSum (fun t => t.category) (fun t => t.amount)
      (l.transactions.filter (currentMonthExpense now)) ht with ⟨p, hp, hcat⟩
    exact ⟨p, (List.mem_insertionSort (fun a b : String × ℚ => b.2 ≤ a.2)).mpr hp, hcat⟩
  · exact List.sorted_insertionSort _ _

/-- Witness for C7 at the concrete October-2026 ledger. -/
theorem category_spending_current_month_spec_witness :
    ({ id := 2, description := "Food run", amount := 50, category := "Food",
       date := daysFromCivil 2026 10 5 } : Transaction) ∈
        exampleMonthLedger.transactions.filter
          (currentMonthExpense (daysFromCivil 2026 10 12))
    ∧ ∃ p ∈ exampleMonthLedger.category_spending_current_month (daysFromCivil 2026 10 12),
        p.1 = ({ id := 2, description := "Food run", amount := 50, category := "Food",
                 date := daysFromCivil 2026 10 5 } : Transaction).category :=
  ⟨by decide,
    (category_spending_current_month_spec (daysFromCivil 2026 10 12)
      exampleMonthLedger).2.1 _ (by decide)⟩

/-- The positive-months branch of `spending_last_n_months`. -/
theorem spending_last_n_months_pos (l : Ledger) (now : DayNum) {months : Nat}
    (h : months ≠ 0) :
    l.spending_last_n_months now months =
      List.insertionSort (fun a b => a.1 ≤ b.1)
        ((groupSum (fun t => (yearOf t.date, monthOf t.date)) (fun t => -t.amount)
            (l.transactions.filter (monthsCutoffKeep now months))).map
          (fun p => (monthLabel p.1.1 p.1.2, p.2))) := by
  unfold Ledger.spending_last_n_months
  rw [if_neg h]

/-- C6: `spending_last_n_months 0` is empty; for positive `months` the result
buckets exactly the transactions dated on or after `now − months·31` days by
(year, month), accumulating `-amount`, has one entry per non-empty bucket
labelled `YYYY-MM`, and is sorted ascending by label. -/
theorem spending_last_n_months_spec (now : DayNum) (l : Ledger) (months : Nat) :
    l.spending_last_n_months now 0 = []
    ∧ (0 < months →
        (∀ p ∈ l.spending_last_n_months now months,
          ∃ ym : Int × Int,
            p.1 = monthLabel ym.1 ym.2
            ∧ (∃ t ∈ l.transactions.filter (monthsCutoffKeep now months),
                (yearOf t.date, monthOf t.date) = ym)
            ∧ p.2 = (((l.transactions.filter (monthsCutoffKeep now months)).filter
                  (fun t => decide ((yearOf t.date, monthOf t.date) = ym))).map
                    (fun t => -t.amount)).sum)
        ∧ (∀ t ∈ l.transactions.filter (monthsCutoffKeep now months),
            ∃ p ∈ l.spending_last_n_months now months,
              p.1 = monthLabel (yearOf t.date) (monthOf t.date))
        ∧ List.Sorted (fun a b : String × ℚ => a.1 ≤ b.1)
            (l.spending_last_n_months now months)) := by
  constructor
  · simp [Ledger.spending_last_n_months]
  · intro hpos
    have hne : months ≠ 0 := Nat.pos_iff_ne_zero.mp hpos
    rw [spending_last_n_months_pos l now hne]
    refine ⟨?_, ?_, List.sorted_insertionSort _ _⟩
    · intro p hp
      have hp2 := (List.mem_insertionSort (fun a b : String × ℚ => a.1 ≤ b.1)).mp hp
      rcases List.mem_map.mp hp2 with ⟨q, hq, hpq⟩
      have hqs := (mem_groupSum_iff _ _ _ q.1 q.2).mp hq
      refine ⟨q.1, ?_, hqs.1, ?_⟩
      · rw [← hpq]
      · rw [← hpq]
        exact hqs.2
    · intro t ht
      rcases exists_mem_groupSum (fun t => (yearOf t.date, monthOf t.date))
        (fun t => -t.amount)
        (l.transactions.filter (monthsCutoffKeep now months)) ht with ⟨q, hq, hcat⟩
      refine ⟨(monthLabel q.1.1 q.1.2, q.2), ?_, ?_⟩
      · exact (List.mem_insertionSort (fun a b : String × ℚ => a.1 ≤ b.1)).mpr
          (List.mem_map.mpr ⟨q, hq, rfl⟩)
      · show monthLabel q.1.1 q.1.2 = _
        rw [hcat]

/-- Witness for C6: positive months at a concrete ledger. -/
theorem spending_last_n_months_spec_witness :
    0 < 6
    ∧ List.Sorted (fun a b : String × ℚ => a.1 ≤ b.1)
        (exampleMonthLedger.spending_last_n_months (daysFromCivil 2026 10 12) 6) :=
  ⟨by decide,
    ((spending_last_n_months_spec (daysFromCivil 2026 10 12) exampleMonthLedger 6).2
      (by decide)).2.2⟩

/-- The empty-suggestions branch of the fallback selection. -/
theorem ite_isEmpty_nil {α : Type} (ys : List α) :
    (if ([] : List α).isEmpty then ys else []) = ys := rfl

/-- The non-empty branch of the fallback selection. -/
theorem ite_isEmpty_of_ne_nil {α : Type} (xs ys : List α) (h : xs ≠ []) :
    (if xs.isEmpty then ys else xs) = xs := by
  cases xs with
  | nil => exact absurd rfl h
  | cons a as => rfl

/-- Sorting the fallback suggestions (all limits equal) leaves them in their
original order, by stability. -/
theorem insertionSort_fallback :
    List.insertionSort (fun a b => b.suggested_limit ≤ a.suggested_limit)
      fallbackSuggestions = fallbackSuggestions := by
  decide

/-- A ledger with a single qualifying 90-day spend of 300 in category
`Food`. -/
def exampleSpendLedger : Ledger :=
  { transactions :=
      [{ id := 1, description := "Groceries", amount := 300, category := "Food",
         date := daysFromCivil 2026 10 5 }],
    budgets := [], next_tx_id := 2, next_budget_id := 1 }

/-- C5: with no qualifying spend in the last 90 days, `suggested_budgets`
returns exactly the three fallback suggestions (Housing, Food, Savings, each
with limit 0 and its own reason); otherwise every suggestion carries the
fixed reason and the limit `round(max(window_sum / 3, 50) · 1.10, 2)` for its
category's windowed sum, every category with qualifying spend appears, and
the list is sorted descending by suggested limit; a 90-day spend of 300
yields the suggestion 110. -/
theorem suggested_budgets_spec (now : DayNum) (l : Ledger) :
    (l.transactions.filter (suggestionWindow now) = [] →
      l.suggested_budgets now = fallbackSuggestions)
    ∧ (l.transactions.filter (suggestionWindow now) ≠ [] →
        (∀ s ∈ l.suggested_budgets now,
          s.reason = "Last 90 days average + 10% buffer"
          ∧ s.suggested_limit =
              (fround (max ((((l.transactions.filter (suggestionWindow now)).filter
                    (fun t => decide (t.category = s.category))).map
                      (fun t => t.amount)).sum / 3) 50 * (11 / 10) * 100) : ℚ) / 100)
        ∧ (∀ t ∈ l.transactions.filter (suggestionWindow now),
            ∃ s ∈ l.suggested_budgets now, s.category = t.category))
    ∧ List.Sorted (fun a b : BudgetSuggestion => b.suggested_limit ≤ a.suggested_limit)
        (l.suggested_budgets now)
    ∧ exampleSpendLedger.suggested_budgets (daysFromCivil 2026 10 12) =
        [{ category := "Food", suggested_limit := 110,
           reason := "Last 90 days average + 10% buffer" }] := by
  refine ⟨?_, ?_, List.sorted_insertionSort _ _, ?_⟩
  · intro h
    unfold Ledger.suggested_budgets
    rw [h]
    rw [show groupSum (fun t => t.category) (fun t => t.amount) ([] : List Transaction) = []
      from rfl]
    rw [List.map_nil]
    rw [ite_isEmpty_nil]
    exact insertionSort_fallback
  · intro hne
    rcases List.exists_mem_of_ne_nil _ hne with ⟨t0, ht0⟩
    have hspendne : (groupSum (fun t => t.category) (fun t => t.amount)
        (l.transactions.filter (suggestionWindow now))).map mkSuggestion ≠ [] := by
      rcases exists_mem_groupSum (fun t => t.category) (fun t => t.amount)
        (l.transactions.filter (suggestionWindow now)) ht0 with ⟨q, hq, _⟩
      exact List.ne_nil_of_mem (List.mem_map.mpr ⟨q, hq, rfl⟩)
    have hout : l.suggested_budgets now =
        List.insertionSort (fun a b => b.suggested_limit ≤ a.suggested_limit)
          ((groupSum (fun t => t.category) (fun t => t.amount)
              (l.transactions.filter (suggestionWindow now))).map mkSuggestion) := by
      unfold Ledger.suggested_budgets
      rw [ite_isEmpty_of_ne_nil _ _ hspendne]
    constructor
    · intro s hs
      rw [hout] at hs
      have hs2 := (List.mem_insertionSort
        (fun a b : BudgetSuggestion => b.suggested_limit ≤ a.suggested_limit)).mp hs
      rcases List.mem_map.mp hs2 with ⟨q, hq, hsq⟩
      have hqs := (mem_groupSum_iff (fun t => t.category) (fun t => t.amount)
        (l.transactions.filter (suggestionWindow now)) q.1 q.2).mp hq
      constructor
      · rw [← hsq]
        rfl
      · rw [← hsq]
        show (fround (max (q.2 / 3) 50 * (11 / 10) * 100) : ℚ) / 100 = _
        rw [hqs.2]
        rfl
    · intro t ht
      rcases exists_mem_groupSum (fun t => t.category) (fun t => t.amount)
        (l.transactions.filter (suggestionWindow now)) ht with ⟨q, hq, hcat⟩
      refine ⟨mkSuggestion q, ?_, hcat⟩
      rw [hout]
      exact (List.mem_insertionSort
        (fun a b : BudgetSuggestion => b.suggested_limit ≤ a.suggested_limit)).mpr
        (List.mem_map.mpr ⟨q, hq, rfl⟩)
  · have hq : exampleSpendLedger.transactions.filter
        (suggestionWindow (daysFromCivil 2026 10 12)) =
        [{ id := 1, description := "Groceries", amount := 300, category := "Food",
           date := daysFromCivil 2026 10 5 }] := by
      decide
    have hfr : fround 11000 = 11000 := by
      unfold fround
      rw [if_pos (by norm_num : (0 : ℚ) ≤ 11000)]
      rw [Int.floor_eq_iff]
      constructor <;> norm_num
    have hmk : mkSuggestion ("Food", (300 : ℚ)) =
        { category := "Food", suggested_limit := 110,
          reason := "Last 90 days average + 10% buffer" } := by
      show BudgetSuggestion.mk "Food"
        ((fround (max ((300 : ℚ) / 3) 50 * (11 / 10) * 100) : ℚ) / 100)
        "Last 90 days average + 10% buffer" = _
      rw [show max ((300 : ℚ) / 3) 50 * (11 / 10) * 100 = 11000 from by norm_num]
      rw [hfr]
      norm_num
    unfold Ledger.suggested_budgets
    rw [hq]
    rw [show groupSum (fun t => t.category) (fun t => t.amount)
        [({ id := 1, description := "Groceries", amount := 300, category := "Food",
            date := daysFromCivil 2026 10 5 } : Transaction)] = [("Food", (300 : ℚ))] from by
      decide]
    rw [List.map_singleton, hmk]
    rw [ite_isEmpty_of_ne_nil _ _ (List.cons_ne_nil _ _)]
    rfl

/-- Witness for C5: the empty ledger has no qualifying spend and gets exactly
the fallback suggestions. -/
theorem suggested_budgets_spec_witness :
    emptyLedger.transactions.filter (suggestionWindow (daysFromCivil 2026 10 12)) = []
    ∧ emptyLedger.suggested_budgets (daysFromCivil 2026 10 12) = fallbackSuggestions :=
  ⟨by decide,
    (suggested_budgets_spec (daysFromCivil 2026 10 12) emptyLedger).1 (by decide)⟩

/-- A transaction form holding the four given field texts. -/
def txFormOf (d a c dt : String) : TxForm :=
  { fields :=
      [{ label := "Description", value := d },
       { label := "Amount (+out / -in)", value := a },
       { label := "Category", value := c },
       { label := "Date (YYYY-MM-DD)", value := dt }],
    index := 0 }

/-- Unfolding of `TxForm.try_submit` on a form with given field texts. -/
theorem try_submit_txFormOf (d a c dt : String) (today : DayNum) :
    (txFormOf d a c dt).try_submit today =
      (if strTrim d = "" then SubmitResult.err "Description is required"
      else if strTrim a = "" then SubmitResult.err "Amount is required"
      else
        match parseF64 (strTrim a) with
        | none => SubmitResult.err "Amount must be a number (use negative for income)"
        | some amount =>
          match (if strTrim dt = "" then SubmitResult.ok today
                 else
                   match parseDate (strTrim dt) with
                   | none => SubmitResult.err "Date must be YYYY-MM-DD"
                   | some dd => SubmitResult.ok dd : SubmitResult DayNum) with
          | SubmitResult.err e => SubmitResult.err e
          | SubmitResult.ok date =>
            SubmitResult.ok
              { description := strTrim d, amount := amount,
                category := if strTrim c = "" then "General" else strTrim c,
                date := date }) := rfl

/-- C8 counterexample: with an empty amount field the trimmed amount does not
parse as a decimal number, yet submission fails with the required-field
message "Amount is required", which is not one of the two parse-error
messages. -/
theorem tx_submit_empty_amount_counterexample :
    (txFormOf "Lunch" "" "" "").try_submit (daysFromCivil 2026 10 12) =
      SubmitResult.err "Amount is required"
    ∧ parseF64 (strTrim "") = none
    ∧ "Amount is required" ≠ "Amount must be a number (use negative for income)"
    ∧ "Amount is required" ≠ "Date must be YYYY-MM-DD" :=
  ⟨by decide, by decide, by decide, by decide⟩

/-- C8 (amended): transaction form submission fails with the required-field
message whenever the trimmed description is empty, regardless of the other
fields; with the amount-required message when the description passes but the
trimmed amount is empty; with the number parse error when the non-empty
trimmed amount does not parse; with the date parse error when the earlier
checks pass and the non-empty trimmed date does not parse; and on amount
"-20" with empty category and date fields it succeeds, with category
`General` and today's date. -/
theorem tx_form_validation (d a c dt : String) (today : DayNum) :
    (strTrim d = "" →
      (txFormOf d a c dt).try_submit today = SubmitResult.err "Description is required")
    ∧ (strTrim d ≠ "" → strTrim a = "" →
      (txFormOf d a c dt).try_submit today = SubmitResult.err "Amount is required")
    ∧ (strTrim d ≠ "" → strTrim a ≠ "" → parseF64 (strTrim a) = none →
      (txFormOf d a c dt).try_submit today =
        SubmitResult.err "Amount must be a number (use negative for income)")
    ∧ (∀ q : ℚ, strTrim d ≠ "" → strTrim a ≠ "" → parseF64 (strTrim a) = some q →
      strTrim dt ≠ "" → parseDate (strTrim dt) = none →
      (txFormOf d a c dt).try_submit today = SubmitResult.err "Date must be YYYY-MM-DD")
    ∧ (strTrim d ≠ "" →
      (txFormOf d "-20" "" "").try_submit today =
        SubmitResult.ok { description := strTrim d, amount := -20,
                          category := "General", date := today }) := by
  refine ⟨?_, ?_, ?_, ?_, ?_⟩
  · intro hd
    rw [try_submit_txFormOf, if_pos hd]
  · intro hd ha
    rw [try_submit_txFormOf, if_neg hd, if_pos ha]
  · intro hd ha hpf
    rw [try_submit_txFormOf, if_neg hd, if_neg ha, hpf]
  · intro q hd ha hpf hdt hpd
    rw [try_submit_txFormOf, if_neg hd, if_neg ha, hpf]
    dsimp only
    rw [if_neg hdt, hpd]
  · intro hd
    rw [try_submit_txFormOf, if_neg hd]
    rfl

/-- Witness for the amended C8: the succeeding "-20" submission. -/
theorem tx_form_validation_witness :
    strTrim "Lunch" ≠ ""
    ∧ (txFormOf "Lunch" "-20" "" "").try_submit (daysFromCivil 2026 10 12) =
        SubmitResult.ok { description := strTrim "Lunch", amount := -20,
                          category := "General", date := daysFromCivil 2026 10 12 } :=
  ⟨by decide, (tx_form_validation "Lunch" "-20" "" "" (daysFromCivil 2026 10 12)).2.2.2.2
    (by decide)⟩

/-- C9: an `Enter`-triggered submission attempt that fails validation only
sets the message — the form stays active with the same (last) field index and
the same texts, and the ledger is unchanged — and `Esc` at any field index
discards the form, returns to idle and leaves the ledger unchanged, for both
form kinds. -/
theorem form_failure_and_cancel (today : DayNum) (app : App) (tf : TxForm)
    (bf : BudgetForm) (e1 e2 : String) (ctrl : Bool) :
    (app.form = ActiveForm.transaction tf → ¬ (tf.index + 1 < tf.fields.length) →
      tf.try_submit today = SubmitResult.err e1 →
      handle_key today app { code := KeyCode.enter, ctrl := ctrl } =
        ({ app with last_message := e1 }, false))
    ∧ (app.form = ActiveForm.budget bf → ¬ (bf.index + 1 < bf.fields.length) →
      bf.try_submit = SubmitResult.err e2 →
      handle_key today app { code := KeyCode.enter, ctrl := ctrl } =
        ({ app with last_message := e2 }, false))
    ∧ (app.form = ActiveForm.transaction tf →
      handle_key today app { code := KeyCode.esc, ctrl := ctrl } =
        ({ app with form := ActiveForm.none, last_message := "Cancelled transaction" }, false))
    ∧ (app.form = ActiveForm.budget bf →
      handle_key today app { code := KeyCode.esc, ctrl := ctrl } =
        ({ app with form := ActiveForm.none, last_message := "Cancelled budget edit" }, false)) := by
  refine ⟨?_, ?_, ?_, ?_⟩
  · intro hf hidx hsub
    simp only [handle_key, hf, hidx, if_false, hsub]
  · intro hf hidx hsub
    simp only [handle_key, hf, hidx, if_false, hsub]
  · intro hf
    simp only [handle_key, hf]
  · intro hf
    simp only [handle_key, hf]

/-- A transaction form with the fresh field texts but the cursor on the last
field, about to be submitted. -/
def exampleTxFormLast (today : DayNum) : TxForm :=
  { fields := (TxForm.new today).fields, index := 3 }

/-- A concrete application state with an active transaction form. -/
def exampleApp (today : DayNum) : App :=
  { ledger := emptyLedger, active_tab := 0,
    form := ActiveForm.transaction (exampleTxFormLast today),
    show_suggestions := true, last_message := "Loaded data" }

/-- Witness for C9: submitting the fresh form (empty description) from its
last field fails and only changes the message. -/
theorem form_failure_and_cancel_witness :
    (exampleApp (daysFromCivil 2026 10 12)).form =
      ActiveForm.transaction (exampleTxFormLast (daysFromCivil 2026 10 12))
    ∧ ¬ ((exampleTxFormLast (daysFromCivil 2026 10 12)).index + 1 <
        (exampleTxFormLast (daysFromCivil 2026 10 12)).fields.length)
    ∧ (exampleTxFormLast (daysFromCivil 2026 10 12)).try_submit (daysFromCivil 2026 10 12) =
        SubmitResult.err "Description is required"
    ∧ handle_key (daysFromCivil 2026 10 12) (exampleApp (daysFromCivil 2026 10 12))
        { code := KeyCode.enter, ctrl := false } =
        ({ exampleApp (daysFromCivil 2026 10 12) with
            last_message := "Description is required" }, false) :=
  ⟨rfl, by decide, by decide,
    (form_failure_and_cancel (daysFromCivil 2026 10 12)
        (exampleApp (daysFromCivil 2026 10 12))
        (exampleTxFormLast (daysFromCivil 2026 10 12)) BudgetForm.new
        "Description is required" "" false).1 rfl (by decide) (by decide)⟩

/-- Unfolding of `BudgetForm.try_submit` on a form with given field texts. -/
theorem try_submit_budgetFormOf (c lim : String) (i : Nat) :
    BudgetForm.try_submit
        { fields := [{ label := "Category", value := c },
                     { label := "Monthly limit", value := lim }], index := i } =
      (if strTrim c = "" then SubmitResult.err "Category is required"
      else
        match parseF64 (strTrim lim) with
        | none => SubmitResult.err "Monthly limit must be a number (no $ sign)"
        | some m => SubmitResult.ok { category := strTrim c, monthly_limit := m }) := rfl

/-- C10: a fresh transaction form pre-fills its category with `General` and
its date with today's ISO rendering, a fresh budget form pre-fills its
category with `General`, and a budget form whose category field still holds
`General` can never fail with the category-required error, whatever the limit
text and cursor position. -/
theorem fresh_form_prefill (today : DayNum) :
    (TxForm.new today).fields.map Field.value = ["", "", "General", dateToString today]
    ∧ BudgetForm.new.fields.map Field.value = ["General", ""]
    ∧ ∀ (limitText : String) (i : Nat),
        BudgetForm.try_submit
            { fields := [{ label := "Category", value := "General" },
                         { label := "Monthly limit", value := limitText }], index := i } ≠
          SubmitResult.err "Category is required" := by
  refine ⟨rfl, rfl, ?_⟩
  intro limitText i
  rw [try_submit_budgetFormOf]
  rw [if_neg (by decide : ¬ strTrim "General" = "")]
  cases hp : parseF64 (strTrim limitText) with
  | none =>
    simp only [hp]
    decide
  | some m =>
    simp only [hp]
    intro hcontra
    exact SubmitResult.noConfusion hcontra

/-- Witness for C10: a fresh budget form with an unparseable limit fails with
the limit parse error, never the category-required error. -/
theorem fresh_form_prefill_witness :
    BudgetForm.try_submit
        { fields := [{ label := "Category", value := "General" },
                     { label := "Monthly limit", value := "abc" }], index := 1 } ≠
      SubmitResult.err "Category is required" :=
  (fresh_form_prefill (daysFromCivil 2026 10 12)).2.2 "abc" 1

end Centsh
